import Mathlib

/-!
Verification of the tillywork real-time collaboration engine.

Shallow embedding of the collaborative-editing core of the tillywork backend:

* `CardsGateway` (WebSocket gateway for card description editing:
  `card:join`, `card:leave`, `card:update`, `awareness:update`,
  `handleDisconnect`, `debounceSave`),
* `YjsPersistenceService` (`loadDocument` / `saveDocument` over Redis,
  base64-encoded Yjs state updates),
* `WsExceptionFilter` (catch-all WebSocket exception filter: emits an
  `error` event to the offending client and does not disconnect it).

Machine integers do not occur; byte strings are modelled as `List Nat`
with values below 256. The Yjs CRDT itself is an external library; it is
modelled from the spec as a grow-only set of opaque update items with a
canonical (sorted) full-state encoding, which satisfies the spec's stated
contract (commutative, associative, idempotent merge; order-independent
byte-identical full-state encodings).
-/

namespace Tilly

/-! ## Base64 codec

Models `js-base64`'s `fromUint8Array`/`toUint8Array` and Node's
`Buffer.from(_, "base64")` / `.toString("base64")`: three bytes become
four six-bit symbols. Symbols are `Nat`s below 64; the alphabet mapping
is irrelevant to the claims so symbols are kept numeric. -/

/-- Encode a byte list (values < 256) into base64 symbols (values < 64). -/
def encode64 : List Nat → List Nat
  | [] => []
  | [a] => [a / 4, a % 4 * 16]
  | [a, b] => [a / 4, a % 4 * 16 + b / 16, b % 16 * 4]
  | a :: b :: c :: rest =>
      (a / 4) :: (a % 4 * 16 + b / 16) :: (b % 16 * 4 + c / 64) :: (c % 64)
        :: encode64 rest

/-- Decode base64 symbols back into bytes. A dangling single symbol cannot
encode a byte and is dropped (lenient decoding, as in `js-base64`). -/
def decode64 : List Nat → List Nat
  | [] => []
  | [_] => []
  | [v0, v1] => [v0 * 4 + v1 / 16]
  | [v0, v1, v2] => [v0 * 4 + v1 / 16, v1 % 16 * 16 + v2 / 4]
  | v0 :: v1 :: v2 :: v3 :: rest =>
      (v0 * 4 + v1 / 16) :: (v1 % 16 * 16 + v2 / 4) :: (v2 % 4 * 64 + v3)
        :: decode64 rest

/-! ## Yjs binary update encoding (modelled)

Modelled from the spec: the Yjs library (`Y.Doc`, `Y.applyUpdate`,
`Y.encodeStateAsUpdate`) is an external dependency, not part of this
repository's sources. The spec requires only "CRDT-style convergence
(order-independence, idempotence)" of a pluggable merge algorithm with
`encodeFull` / `decodeFull` / `applyUpdate`. We model the convergent
state as a finite set of opaque update items (`Nat`s) and the binary
update format as a self-delimiting byte encoding of an item list: each
item is written as its base-255 digits followed by a terminator byte 255.
Malformed byte strings (a trailing partial item, or an out-of-range
byte) fail to decode, modelling `Y.applyUpdate` throwing. -/

/-- Little-endian base-255 digits, fuel-structured so that the kernel can
evaluate it (`fuel ≥ n` suffices). -/
def digits255Aux : Nat → Nat → List Nat
  | _, 0 => []
  | 0, _ + 1 => []
  | fuel + 1, n + 1 => (n + 1) % 255 :: digits255Aux fuel ((n + 1) / 255)

/-- Little-endian base-255 digits of `n`. -/
def digits255 (n : Nat) : List Nat := digits255Aux n n

/-- Read a little-endian base-255 digit list back as a number. -/
def unDigits : List Nat → Nat
  | [] => 0
  | d :: ds => d + 255 * unDigits ds

/-- Serialize a list of update items into bytes (all values < 256). -/
def serialize : List Nat → List Nat
  | [] => []
  | n :: rest => digits255 n ++ 255 :: serialize rest

/-- Worker for `deserialize`: `acc` holds the digits of the item being read. -/
def deserializeAux : List Nat → List Nat → Option (List Nat)
  | [], acc => if acc.isEmpty then some [] else none
  | b :: rest, acc =>
      if b = 255 then
        (deserializeAux rest []).map (fun l => unDigits acc :: l)
      else if b < 255 then
        deserializeAux rest (acc ++ [b])
      else
        none

/-- Parse a byte string back into the list of update items; `none` on a
malformed byte string. -/
def deserialize (bytes : List Nat) : Option (List Nat) :=
  deserializeAux bytes []

namespace Y

/-- Modelled from the spec: the convergent document state of the external
Yjs library — an opaque mergeable state, here a finite set of update
items kept as a strictly sorted list (the canonical representation every
reachable document satisfies; see `Canonical`). -/
abbrev Doc := List Nat

/-- A document is canonical when its item list is strictly sorted (no
duplicates, ascending). `newDoc` is canonical and every merge preserves
canonicality. -/
def Canonical (doc : Doc) : Prop := doc.Sorted (· < ·)

instance (doc : Doc) : Decidable (Canonical doc) := by
  unfold Canonical List.Sorted
  infer_instance

/-- `new Y.Doc()`: the empty convergent state. -/
def newDoc : Doc := []

/-- Insert an item into a sorted item list, dropping duplicates. -/
def insertSorted (x : Nat) : List Nat → List Nat
  | [] => [x]
  | y :: ys =>
      if x < y then x :: y :: ys
      else if x = y then y :: ys
      else y :: insertSorted x ys

/-- Merge a decoded update's items into the state (commutative,
associative, idempotent set union on canonical representations). -/
def mergeItems (doc : Doc) (items : List Nat) : Doc :=
  items.foldl (fun d i => insertSorted i d) doc

/-- Items encoded by an update byte string, defaulting to none on a
malformed string. -/
def itemsOf (update : List Nat) : List Nat := (deserialize update).getD []

/-- `Y.encodeStateAsUpdate(doc)`: the full-state encoding — the
serialization of the canonical item list. -/
def encodeStateAsUpdate (doc : Doc) : List Nat := serialize doc

/-- `Y.applyUpdate(doc, bytes)`: merge the update's items into the state.
Throws (`none`) when the byte string is malformed. -/
def applyUpdate (doc : Doc) (update : List Nat) : Option Doc :=
  (deserialize update).map (mergeItems doc)

/-- Total variant of `applyUpdate` (a malformed update merges nothing),
used to state algebraic properties. -/
def applyUpdateD (doc : Doc) (update : List Nat) : Doc :=
  mergeItems doc (itemsOf update)

/-- Fold `applyUpdateD` over a list of update byte strings. -/
def applyAllD (doc : Doc) : List (List Nat) → Doc
  | [] => doc
  | u :: us => applyAllD (applyUpdateD doc u) us

/-- The set of items contributed by a list of updates. -/
def itemsUnion : List (List Nat) → Finset Nat
  | [] => ∅
  | u :: us => (itemsOf u).toFinset ∪ itemsUnion us

end Y

/-! ## Association-list maps

The gateway's `Map` fields (`docs`, `socketToRoom`, `awarenessStates`,
`saveTimers`) and the Redis key-value store are modelled as association
lists with `Map.set`/`Map.delete` as key-replacing insert and filter. -/

/-- `Map.set`: bind `k` to `v`, replacing any previous binding. -/
def alSet {κ α : Type} [BEq κ] (k : κ) (v : α) (l : List (κ × α)) :
    List (κ × α) :=
  (k, v) :: l.filter (fun p => p.1 != k)

/-- `Map.delete`: drop any binding of `k`. -/
def alRemove {κ α : Type} [BEq κ] (k : κ) (l : List (κ × α)) :
    List (κ × α) :=
  l.filter (fun p => p.1 != k)

/-- Keys of an association-list map. -/
def alKeys {κ α : Type} (l : List (κ × α)) : List κ := l.map Prod.fst

/-! ## Awareness (presence) protocol

Modelled from the spec: the `y-protocols/awareness` library is external.
A room's awareness is the ephemeral map from numeric client id to a
presence payload (an opaque blob, modelled as a `Nat`); an awareness
update is a list of entries, each either setting (replace-on-write) or
removing a client's payload, and the wire encoding of an update is
modelled by the entry list it encodes. -/

abbrev AwarenessState := List (Nat × Nat)

/-- `awarenessProtocol.applyAwarenessUpdate`: apply the update's entries,
last write per client winning. -/
def applyAwarenessUpdate (aw : AwarenessState) :
    List (Nat × Option Nat) → AwarenessState
  | [] => aw
  | (cid, some payload) :: rest =>
      applyAwarenessUpdate (alSet cid payload aw) rest
  | (cid, none) :: rest =>
      applyAwarenessUpdate (alRemove cid aw) rest

/-- `awarenessProtocol.encodeAwarenessUpdate`: encode the current entries
of the listed clients (`none` encodes a removal for clients with no
entry). -/
def encodeAwarenessUpdate (aw : AwarenessState) (clients : List Nat) :
    List (Nat × Option Nat) :=
  clients.map (fun c => (c, List.lookup c aw))

/-! ## Messages emitted by the server -/

inductive Payload where
  /-- `card:sync` — base64 full-state encoding sent once after join. -/
  | sync (state : List Nat)
  /-- `awareness:update` — an encoded awareness update for `room`. -/
  | awareness (room : String) (entries : List (Nat × Option Nat))
  /-- `card:update` — a document update relayed to peers. -/
  | cardUpdate (cardId : String) (update : List Nat)
  /-- `error` — non-fatal error notice from the `WsExceptionFilter`. -/
  | errorMsg (message : String)
deriving DecidableEq

inductive Emission where
  | toClient (socket : String) (p : Payload)
  | toRoomExceptSender (room : String) (sender : String) (p : Payload)
  | toRoomAll (room : String) (p : Payload)
deriving DecidableEq

/-! ## System state and environment -/

structure TimerEntry where
  fireAt : Nat
  latestContent : List Nat
deriving DecidableEq

/-- The mutable state of the collaboration engine: the `CardsGateway`'s
four maps, the socket.io room membership and per-socket listener
registrations (transport layer), the Redis keyspace behind
`YjsPersistenceService`, and the trace of canonical-document writes
issued by fired debounce timers. -/
structure SystemState where
  docs : List (String × Y.Doc)
  socketToRoom : List (String × String)
  awarenessStates : List (String × AwarenessState)
  saveTimers : List (String × TimerEntry)
  membership : List (String × String)
  listeners : List (String × String)
  redis : List (String × List Nat)
  matTrace : List (Nat × String × List Nat)
deriving DecidableEq

def initialState : SystemState :=
  { docs := [], socketToRoom := [], awarenessStates := [], saveTimers := [],
    membership := [], listeners := [], redis := [], matTrace := [] }

/-- Outcomes of the external collaborators during a run:
`canAccess` is `cardsService.findOne` succeeding for a card id, and
`saveOk` is the Redis write in `saveDocument` succeeding. -/
structure Env where
  canAccess : String → Bool
  saveOk : Bool

/-- Result of one handler invocation: the new state, the emissions made
before any exception, and the exception (if one escaped the handler and
reached the `WsExceptionFilter`). -/
structure StepResult where
  sys : SystemState
  emits : List Emission
  thrown : Option String
deriving DecidableEq

/-! ## YjsPersistenceService
(`packages/backend/src/app/common/collaboration/yjs.persistence.service.ts`) -/

namespace YjsPersistenceService

/-- `loadDocument(docName)`: read `yjs:<docName>`; absent keys yield
`null`; present data is base64-decoded and applied to a fresh doc
(`Y.applyUpdate` would throw on corrupt data). -/
def loadDocument (redis : List (String × List Nat)) (docName : String) :
    Except String (Option Y.Doc) :=
  match List.lookup ("yjs:" ++ docName) redis with
  | some data =>
      match Y.applyUpdate Y.newDoc (decode64 data) with
      | some doc => .ok (some doc)
      | none => .error "applyUpdate"
  | none => .ok none

/-- `saveDocument(docName, doc)`: write the base64-encoded full-state
update under `yjs:<docName>`. -/
def saveDocument (redis : List (String × List Nat)) (docName : String)
    (doc : Y.Doc) : List (String × List Nat) :=
  alSet ("yjs:" ++ docName) (encode64 (Y.encodeStateAsUpdate doc)) redis

end YjsPersistenceService

/-! ## CardsGateway (`part_005`) -/

namespace CardsGateway

def SAVE_DEBOUNCE_MS : Nat := 1000 * 2

def roomOf (cardId : Nat) : String := "card:" ++ toString cardId

/-- `client.join(room)` (socket.io): add the socket to the room's member
set; previously joined rooms are kept. -/
def memJoin (membership : List (String × String)) (client room : String) :
    List (String × String) :=
  if (client, room) ∈ membership then membership
  else (client, room) :: membership

/-- `client.leave(room)` (socket.io). -/
def memLeave (membership : List (String × String)) (client room : String) :
    List (String × String) :=
  membership.filter (fun p => p != (client, room))

/-- Modelled from the spec: `yXmlFragmentToJSON` derives the canonical
ProseMirror JSON via the external `y-prosemirror` library; the spec
requires the derivation to be a pure function of the convergent state
("identical convergent state materializes to byte-identical JSON").
Modelled as the canonical full-state encoding. -/
def yXmlFragmentToJSON (doc : Y.Doc) : List Nat :=
  Y.encodeStateAsUpdate doc

/-- `debounceSave(cardId, jsonContent)` (part_005 lines 250-270):
`clearTimeout` any existing timer for the card, then schedule a single
fresh timer at `now + SAVE_DEBOUNCE_MS` carrying this update's JSON. -/
def debounceSave (sys : SystemState) (now : Nat) (cardId : String)
    (jsonContent : List Nat) : SystemState :=
  { sys with
      saveTimers :=
        alSet cardId
          { fireAt := now + SAVE_DEBOUNCE_MS, latestContent := jsonContent }
          sys.saveTimers }

/-- `onJoin` (part_005 lines 85-150). `env.canAccess` models
`cardsService.findOne(data.cardId)` succeeding; on failure the exception
propagates (lines 93-100). On success: `client.join(room)` (102), doc
resolution via the persistence service (104-111), awareness creation
with `setLocalState(null)` leaving no server-side entry (113-119),
listener registration (120-137), then the full awareness encoding and
the full document state are sent to the joiner (139-149). -/
def onJoin (env : Env) (sys : SystemState) (client : String)
    (cardId : Nat) : StepResult :=
  let room := roomOf cardId
  if env.canAccess (toString cardId) then
    let mem1 := memJoin sys.membership client room
    let resolved : Except String (Y.Doc × List (String × Y.Doc)) :=
      match List.lookup room sys.docs with
      | some doc => .ok (doc, sys.docs)
      | none =>
          match YjsPersistenceService.loadDocument sys.redis room with
          | .ok (some doc) => .ok (doc, alSet room doc sys.docs)
          | .ok none => .ok (Y.newDoc, alSet room Y.newDoc sys.docs)
          | .error e => .error e
    match resolved with
    | .error e =>
        { sys := { sys with membership := mem1 }, emits := [],
          thrown := some e }
    | .ok (doc, docs1) =>
        let awareness := (List.lookup room sys.awarenessStates).getD []
        let awStates1 :=
          match List.lookup room sys.awarenessStates with
          | some _ => sys.awarenessStates
          | none => alSet room ([] : AwarenessState) sys.awarenessStates
        let sys1 :=
          { sys with
              membership := mem1, docs := docs1,
              awarenessStates := awStates1,
              listeners := sys.listeners ++ [(client, room)] }
        let awarenessUpdate :=
          encodeAwarenessUpdate awareness (awareness.map Prod.fst)
        { sys := sys1,
          emits := [.toClient client (.awareness room awarenessUpdate),
                    .toClient client (.sync (Y.encodeStateAsUpdate doc))],
          thrown := none }
  else
    { sys := sys, emits := [], thrown := some "NotFound: card" }

/-- One registered listener's effect on the matched room's awareness. -/
def applyAwarenessTo (dataRoom : String) (entries : List (Nat × Option Nat))
    (s : SystemState) : SystemState :=
  match List.lookup dataRoom s.awarenessStates with
  | some aw =>
      { s with
          awarenessStates :=
            alSet dataRoom (applyAwarenessUpdate aw entries)
              s.awarenessStates }
  | none => s

/-- Per-socket `awareness:update` listener (part_005 lines 120-137): one
listener is registered per completed join; each listener whose captured
room equals `data.room` applies the update to that room's awareness and
relays the raw update to the room's other members. -/
def onAwarenessUpdate (sys : SystemState) (client : String)
    (dataRoom : String) (entries : List (Nat × Option Nat)) : StepResult :=
  let hits := sys.listeners.filter
    (fun p => p.1 == client && p.2 == dataRoom)
  { sys := hits.foldl (fun s _ => applyAwarenessTo dataRoom entries s) sys,
    emits := hits.map (fun _ =>
      Emission.toRoomExceptSender dataRoom client
        (.awareness dataRoom entries)),
    thrown := none }

/-- `onLeave` (part_005 lines 152-175): `client.leave(room)`, delete the
socket's `socketToRoom` entry, then delete awareness key
`Number(client.id)` — socket ids are non-numeric strings, so `Number`
yields `NaN`, which matches no map key and deletes nothing (modelled via
`String.toNat?`) — and broadcast the (empty-effect) removal encoding to
the whole room. -/
def onLeave (sys : SystemState) (client : String) (cardId : Nat) :
    StepResult :=
  let room := roomOf cardId
  let awareness := List.lookup room sys.awarenessStates
  let sys1 :=
    { sys with
        membership := memLeave sys.membership client room,
        socketToRoom := alRemove client sys.socketToRoom }
  match awareness with
  | none => { sys := sys1, emits := [], thrown := none }
  | some aw =>
      let aw1 :=
        match client.toNat? with
        | some n => alRemove n aw
        | none => aw
      let upd :=
        match client.toNat? with
        | some n => encodeAwarenessUpdate aw1 [n]
        | none => []
      { sys :=
          { sys1 with awarenessStates := alSet room aw1 sys.awarenessStates },
        emits := [.toRoomAll room (.awareness room upd)],
        thrown := none }

/-- `onUpdate` (part_005 lines 177-213): re-check access via
`cardsService.findOne(+cardId)` (184-192); assert the room's doc is
resident (`assertNotNullOrUndefined(doc, "doc")`, 194-195); decode and
merge the update (197-199); persist the snapshot — a rejected Redis
write throws here, after the in-memory merge, skipping everything below
(200); broadcast the raw update to the room's other members (202-205);
derive the JSON and reset the debounce timer (207-212). -/
def onUpdate (env : Env) (now : Nat) (sys : SystemState) (client : String)
    (cardId : String) (update : List Nat) : StepResult :=
  if env.canAccess cardId then
    match List.lookup ("card:" ++ cardId) sys.docs with
    | none => { sys := sys, emits := [], thrown := some "doc" }
    | some doc =>
        match Y.applyUpdate doc (decode64 update) with
        | none => { sys := sys, emits := [], thrown := some "applyUpdate" }
        | some doc2 =>
            let sys1 :=
              { sys with docs := alSet ("card:" ++ cardId) doc2 sys.docs }
            if env.saveOk then
              let sys2 :=
                { sys1 with
                    redis := YjsPersistenceService.saveDocument sys1.redis
                      ("card:" ++ cardId) doc2 }
              let json := yXmlFragmentToJSON doc2
              { sys := debounceSave sys2 now cardId json,
                emits := [.toRoomExceptSender ("card:" ++ cardId) client
                            (.cardUpdate cardId update)],
                thrown := none }
            else
              { sys := sys1, emits := [], thrown := some "saveDocument" }
  else
    { sys := sys, emits := [], thrown := some "NotFound: card" }

/-- `handleDisconnect` (part_005 lines 215-241): look the socket up in
`socketToRoom` — a map that is never written during `onJoin`, so the
lookup always misses on states reachable from startup and the handler
returns without touching awareness; the awareness-removal branch
(226-238) mirrors `onLeave`. -/
def handleDisconnect (sys : SystemState) (client : String) : StepResult :=
  match List.lookup client sys.socketToRoom with
  | none => { sys := sys, emits := [], thrown := none }
  | some room =>
      match List.lookup room sys.awarenessStates with
      | none =>
          { sys := { sys with socketToRoom := alRemove client sys.socketToRoom },
            emits := [], thrown := none }
      | some aw =>
          let aw1 :=
            match client.toNat? with
            | some n => alRemove n aw
            | none => aw
          let upd :=
            match client.toNat? with
            | some n => encodeAwarenessUpdate aw1 [n]
            | none => []
          { sys :=
              { sys with
                  awarenessStates := alSet room aw1 sys.awarenessStates,
                  socketToRoom := alRemove client sys.socketToRoom },
            emits := [.toRoomAll room (.awareness room upd)],
            thrown := none }

/-- A transport-level disconnect: socket.io removes the socket from all
of its rooms and drops its listeners, then the gateway's
`handleDisconnect` hook runs. -/
def transportDisconnect (sys : SystemState) (client : String) : StepResult :=
  let r := handleDisconnect sys client
  { r with
      sys :=
        { r.sys with
            membership := r.sys.membership.filter (fun p => p.1 != client),
            listeners := r.sys.listeners.filter (fun p => p.1 != client) } }

end CardsGateway

/-! ## Timer firing and the timed event runner

`setTimeout` callbacks run when the event loop reaches their deadline; a
cleared (replaced) timer never runs. The runner processes externally
timestamped events in order, firing any timers whose deadline has passed
before each event, and `runToQuiescence` lets every remaining timer
fire. -/

namespace CardsGateway

/-- The body of the debounce timer (part_005 lines 256-266): call
`cardsService.updateCardDescription(+cardId, jsonContent)` — recorded in
the materialization trace; a failing call is only logged — and `finally`
remove the pending entry. -/
def fireTimer (sys : SystemState) (cardId : String) (t : TimerEntry) :
    SystemState :=
  { sys with
      matTrace := sys.matTrace ++ [(t.fireAt, cardId, t.latestContent)],
      saveTimers := alRemove cardId sys.saveTimers }

/-- The pending timer with the earliest deadline (first wins ties). -/
def earliestTimer (timers : List (String × TimerEntry)) :
    Option (String × TimerEntry) :=
  timers.foldl
    (fun best p =>
      match best with
      | none => some p
      | some q => if p.2.fireAt < q.2.fireAt then some p else some q)
    none

def fireDueFuel : Nat → SystemState → Nat → SystemState
  | 0, sys, _ => sys
  | fuel + 1, sys, t =>
      match earliestTimer sys.saveTimers with
      | some (k, e) =>
          if e.fireAt ≤ t then fireDueFuel fuel (fireTimer sys k e) t
          else sys
      | none => sys

/-- Fire every pending timer whose deadline is at or before `t`. -/
def fireDue (sys : SystemState) (t : Nat) : SystemState :=
  fireDueFuel sys.saveTimers.length sys t

def flushTimersFuel : Nat → SystemState → SystemState
  | 0, sys => sys
  | fuel + 1, sys =>
      match earliestTimer sys.saveTimers with
      | some (k, e) => flushTimersFuel fuel (fireTimer sys k e)
      | none => sys

/-- Let every remaining pending timer fire at its deadline. -/
def runToQuiescence (sys : SystemState) : SystemState :=
  flushTimersFuel sys.saveTimers.length sys

end CardsGateway

/-- A client-originated event delivered to the gateway. -/
inductive GEvent where
  | join (client : String) (cardId : Nat)
  | leave (client : String) (cardId : Nat)
  | update (client : String) (cardId : String) (upd : List Nat)
  | awarenessUpd (client : String) (room : String)
      (entries : List (Nat × Option Nat))
  | disconnect (client : String)
deriving DecidableEq

def GEvent.client : GEvent → String
  | .join c _ => c
  | .leave c _ => c
  | .update c _ _ => c
  | .awarenessUpd c _ _ => c
  | .disconnect c => c

def handleEvent (env : Env) (now : Nat) (sys : SystemState) :
    GEvent → StepResult
  | .join c id => CardsGateway.onJoin env sys c id
  | .leave c id => CardsGateway.onLeave sys c id
  | .update c id u => CardsGateway.onUpdate env now sys c id u
  | .awarenessUpd c room entries =>
      CardsGateway.onAwarenessUpdate sys c room entries
  | .disconnect c => CardsGateway.transportDisconnect sys c

/-- `WsExceptionFilter.catch` (part_007 lines 22-77): an exception that
escapes a handler is turned into an `error` event emitted to the
offending client; the client is not disconnected. -/
def wsFiltered (client : String) (r : StepResult) :
    SystemState × List Emission :=
  match r.thrown with
  | some msg => (r.sys, r.emits ++ [.toClient client (.errorMsg msg)])
  | none => (r.sys, r.emits)

/-- Process timestamped events in order, firing due timers first. -/
def runEvents (env : Env) :
    SystemState → List (Nat × GEvent) → SystemState × List Emission
  | sys, [] => (sys, [])
  | sys, (t, ev) :: rest =>
      let sys1 := CardsGateway.fireDue sys t
      let r := wsFiltered ev.client (handleEvent env t sys1 ev)
      let rec2 := runEvents env r.1 rest
      (rec2.1, r.2 ++ rec2.2)

/-- The member sockets of a socket.io room. -/
def roomMembers (sys : SystemState) (room : String) : List String :=
  (sys.membership.filter (fun p => p.2 == room)).map Prod.fst

/-! ## Concrete runs used by counterexamples and witnesses -/

/-- Every card accessible, Redis writes succeed. -/
def envAll : Env := { canAccess := fun _ => true, saveOk := true }

/-- Every card accessible, Redis writes rejected. -/
def envNoSave : Env := { canAccess := fun _ => true, saveOk := false }

/-- No card accessible. -/
def envDeny : Env := { canAccess := fun _ => false, saveOk := true }

/-- A well-formed client update inserting the single item `i`. -/
def updOf (i : Nat) : List Nat := encode64 (serialize [i])

/-- Sockets `s1` and `s2` joined to room `card:1` on a fresh server. -/
def twoJoinedSys : SystemState :=
  (runEvents envAll initialState [(0, .join "s1" 1), (0, .join "s2" 1)]).1

/-- `s1` joined to `card:1` and holding presence entry `(7, 5)` there. -/
def c2Sys : SystemState :=
  (runEvents envAll initialState
    [(0, .join "s1" 1), (0, .awarenessUpd "s1" "card:1" [(7, some 5)])]).1

def c2Res : StepResult := CardsGateway.transportDisconnect c2Sys "s1"

/-- `s1` joined to rooms `card:1` and `card:2` without leaving. -/
def c8Sys : SystemState :=
  (runEvents envAll initialState [(0, .join "s1" 1), (0, .join "s1" 2)]).1

def c1Res : StepResult :=
  CardsGateway.onUpdate envNoSave 0 twoJoinedSys "s1" "1" (updOf 1)
/-- `s1`, `s2` in room `card:1`; `s1` sends updates at t=0, t=0.5s and
t=1.0s. -/
def c5Sys : SystemState :=
  (runEvents envAll initialState
    [(0, .join "s1" 1), (0, .join "s2" 1),
     (0, .update "s1" "1" (updOf 1)),
     (500, .update "s1" "1" (updOf 2)),
     (1000, .update "s1" "1" (updOf 3))]).1

/-! ## Properties of the codecs, the convergent merge and the maps -/

theorem digits255Aux_spec :
    ∀ fuel n, n ≤ fuel →
      unDigits (digits255Aux fuel n) = n ∧
        ∀ d ∈ digits255Aux fuel n, d < 255 := by
  intro fuel
  induction fuel with
  | zero =>
      intro n hn
      interval_cases n
      simp [digits255Aux, unDigits]
  | succ f ih =>
      intro n hn
      match n with
      | 0 => simp [digits255Aux, unDigits]
      | m + 1 =>
          have hdiv : (m + 1) / 255 ≤ f := by
            have := Nat.div_lt_self (Nat.succ_pos m) (by norm_num : 1 < 255)
            omega
          obtain ⟨ih1, ih2⟩ := ih ((m + 1) / 255) hdiv
          constructor
          · simp only [digits255Aux, unDigits, ih1]
            omega
          · intro d hd
            simp only [digits255Aux, List.mem_cons] at hd
            rcases hd with h | h
            · omega
            · exact ih2 d h

theorem unDigits_digits255 (n : Nat) : unDigits (digits255 n) = n :=
  (digits255Aux_spec n n le_rfl).1

theorem digits255_lt (n : Nat) : ∀ d ∈ digits255 n, d < 255 :=
  (digits255Aux_spec n n le_rfl).2

theorem decode64_encode64 :
    ∀ l : List Nat, (∀ x ∈ l, x < 256) → decode64 (encode64 l) = l
  | [], _ => rfl
  | [a], h => by
      have ha : a < 256 := h a (by simp)
      simp only [encode64, decode64, List.cons.injEq, and_true]
      omega
  | [a, b], h => by
      have ha : a < 256 := h a (by simp)
      have hb : b < 256 := h b (by simp)
      simp only [encode64, decode64, List.cons.injEq, and_true]
      omega
  | a :: b :: c :: rest, h => by
      have ha : a < 256 := h a (by simp)
      have hb : b < 256 := h b (by simp)
      have hc : c < 256 := h c (by simp)
      have hrest : ∀ x ∈ rest, x < 256 := fun x hx => h x (by simp [hx])
      have ih := decode64_encode64 rest hrest
      simp only [encode64, decode64, List.cons.injEq]
      refine ⟨by omega, by omega, by omega, ih⟩

theorem serialize_lt : ∀ l : List Nat, ∀ x ∈ serialize l, x < 256
  | [], x, hx => by simp [serialize] at hx
  | n :: rest, x, hx => by
      simp only [serialize, List.mem_append, List.mem_cons] at hx
      rcases hx with hd | hx | hx
      · exact lt_trans (digits255_lt n x hd) (by norm_num)
      · omega
      · exact serialize_lt rest x hx

theorem deserializeAux_digits_append (ds : List Nat) :
    ∀ (acc rest : List Nat), (∀ d ∈ ds, d < 255) →
      deserializeAux (ds ++ 255 :: rest) acc =
        (deserializeAux rest []).map
          (fun l => unDigits (acc ++ ds) :: l) := by
  induction ds with
  | nil =>
      intro acc rest _
      simp [deserializeAux]
  | cons d ds ih =>
      intro acc rest h
      have hd : d < 255 := h d (by simp)
      have hne : ¬ d = 255 := by omega
      simp only [List.cons_append, deserializeAux, hne, if_false, hd, if_true,
        List.append_eq]
      rw [ih (acc ++ [d]) rest (fun x hx => h x (by simp [hx]))]
      simp

theorem deserialize_serialize :
    ∀ l : List Nat, deserialize (serialize l) = some l := by
  intro l
  induction l with
  | nil => rfl
  | cons n rest ih =>
      unfold deserialize at *
      simp only [serialize]
      rw [deserializeAux_digits_append (digits255 n) [] (serialize rest)
            (digits255_lt n)]
      simp [ih, unDigits_digits255]

namespace Y

theorem applyUpdate_eq_some {doc : Doc} {update items : List Nat}
    (h : deserialize update = some items) :
    applyUpdate doc update = some (applyUpdateD doc update) := by
  simp [applyUpdate, applyUpdateD, itemsOf, h]

theorem mem_insertSorted (x a : Nat) :
    ∀ l : List Nat, a ∈ insertSorted x l ↔ a = x ∨ a ∈ l
  | [] => by simp [insertSorted]
  | y :: ys => by
      by_cases h1 : x < y
      · simp [insertSorted, h1]
      · by_cases h2 : x = y
        · subst h2
          simp only [insertSorted, h1, if_false, if_true, List.mem_cons]
          tauto
        · simp only [insertSorted, h1, h2, if_false, List.mem_cons,
            mem_insertSorted x a ys]
          tauto

theorem sorted_insertSorted (x : Nat) :
    ∀ l : List Nat, l.Sorted (· < ·) → (insertSorted x l).Sorted (· < ·)
  | [], _ => by simp [insertSorted]
  | y :: ys, h => by
      rw [List.sorted_cons] at h
      obtain ⟨hy, hys⟩ := h
      by_cases h1 : x < y
      · simp only [insertSorted, h1, if_true, List.sorted_cons]
        exact ⟨fun b hb => by
          rcases List.mem_cons.mp hb with rfl | hb
          · exact h1
          · exact lt_trans h1 (hy b hb), hy, hys⟩
      · by_cases h2 : x = y
        · simpa [insertSorted, h1, h2] using List.sorted_cons.mpr ⟨hy, hys⟩
        · have hxy : y < x := by omega
          simp only [insertSorted, h1, h2, if_false, List.sorted_cons]
          refine ⟨fun b hb => ?_, sorted_insertSorted x ys hys⟩
          rcases (mem_insertSorted x b ys).mp hb with rfl | hb
          · exact hxy
          · exact hy b hb

theorem toFinset_insertSorted (x : Nat) (l : List Nat) :
    (insertSorted x l).toFinset = insert x l.toFinset := by
  ext a
  simp [mem_insertSorted]

theorem mergeItems_sorted (items : List Nat) :
    ∀ doc : Doc, doc.Sorted (· < ·) →
      (mergeItems doc items).Sorted (· < ·) := by
  induction items with
  | nil => intro doc h; exact h
  | cons i is ih =>
      intro doc h
      exact ih (insertSorted i doc) (sorted_insertSorted i doc h)

theorem mergeItems_toFinset (items : List Nat) :
    ∀ doc : Doc,
      (mergeItems doc items).toFinset = doc.toFinset ∪ items.toFinset := by
  induction items with
  | nil => intro doc; simp [mergeItems]
  | cons i is ih =>
      intro doc
      show (mergeItems (insertSorted i doc) is).toFinset = _
      rw [ih (insertSorted i doc), toFinset_insertSorted]
      ext a
      simp only [Finset.mem_union, Finset.mem_insert, List.mem_toFinset,
        List.toFinset_cons]
      tauto

/-- Canonical representations are unique: two strictly sorted lists with
the same elements are equal. -/
theorem canonical_eq {l₁ l₂ : List Nat} (h₁ : l₁.Sorted (· < ·))
    (h₂ : l₂.Sorted (· < ·)) (h : l₁.toFinset = l₂.toFinset) : l₁ = l₂ := by
  have hn₁ : l₁.Nodup := h₁.nodup
  have hn₂ : l₂.Nodup := h₂.nodup
  have hperm : l₁.Perm l₂ := List.perm_of_nodup_nodup_toFinset_eq hn₁ hn₂ h
  exact List.eq_of_perm_of_sorted hperm
    (h₁.imp fun {a b} hab => le_of_lt hab)
    (h₂.imp fun {a b} hab => le_of_lt hab)

theorem mergeItems_self {doc : Doc} (h : Canonical doc) :
    mergeItems newDoc doc = doc := by
  refine canonical_eq (mergeItems_sorted doc newDoc (by simp [newDoc])) h ?_
  rw [mergeItems_toFinset]
  simp [newDoc]

/-- A full-state encoding applied to a fresh document reconstructs the
state exactly. -/
theorem applyUpdateD_newDoc_encode {doc : Doc} (h : Canonical doc) :
    applyUpdateD newDoc (encodeStateAsUpdate doc) = doc := by
  rw [applyUpdateD, itemsOf, encodeStateAsUpdate, deserialize_serialize]
  exact mergeItems_self h

theorem applyUpdate_newDoc_encode {doc : Doc} (h : Canonical doc) :
    applyUpdate newDoc (encodeStateAsUpdate doc) = some doc := by
  rw [encodeStateAsUpdate, applyUpdate_eq_some (deserialize_serialize doc),
    ← encodeStateAsUpdate, applyUpdateD_newDoc_encode h]

theorem applyAllD_sorted (us : List (List Nat)) :
    ∀ doc : Doc, Canonical doc → Canonical (applyAllD doc us) := by
  induction us with
  | nil => intro doc h; exact h
  | cons u us ih =>
      intro doc h
      exact ih (applyUpdateD doc u) (mergeItems_sorted (itemsOf u) doc h)

theorem applyAllD_toFinset (us : List (List Nat)) :
    ∀ doc : Doc,
      (applyAllD doc us).toFinset = doc.toFinset ∪ itemsUnion us := by
  induction us with
  | nil => intro doc; simp [applyAllD, itemsUnion]
  | cons u us ih =>
      intro doc
      show (applyAllD (applyUpdateD doc u) us).toFinset = _
      rw [ih (applyUpdateD doc u), applyUpdateD, mergeItems_toFinset]
      simp [itemsUnion, Finset.union_assoc]

theorem itemsUnion_perm {us us2 : List (List Nat)} (h : us.Perm us2) :
    itemsUnion us = itemsUnion us2 := by
  induction h with
  | nil => rfl
  | cons u _ ih => simp [itemsUnion, ih]
  | swap u v l =>
      simp only [itemsUnion, ← Finset.union_assoc]
      rw [Finset.union_comm (itemsOf v).toFinset (itemsOf u).toFinset]
  | trans _ _ ih1 ih2 => rw [ih1, ih2]

theorem itemsOf_subset_itemsUnion {u : List Nat} {us : List (List Nat)}
    (h : u ∈ us) : (itemsOf u).toFinset ⊆ itemsUnion us := by
  induction us with
  | nil => cases h
  | cons v vs ih =>
      rcases List.mem_cons.mp h with rfl | h
      · exact Finset.subset_union_left
      · exact (ih h).trans Finset.subset_union_right

end Y

theorem lookup_filter_ne {κ α : Type} [BEq κ] [LawfulBEq κ] {k k' : κ}
    (h : k' ≠ k) :
    ∀ l : List (κ × α),
      List.lookup k' (l.filter (fun p => p.1 != k)) = List.lookup k' l
  | [] => rfl
  | (a, b) :: t => by
      by_cases ha : a = k
      · subst ha
        have : (k' == a) = false := beq_false_of_ne h
        simp [List.lookup, this, lookup_filter_ne h t]
      · by_cases hk : k' = a
        · subst hk
          simp [List.lookup, bne_iff_ne, ha]
        · have h1 : (k' == a) = false := beq_false_of_ne hk
          by_cases hf : (a != k) = true
          · simp [List.lookup, hf, h1, lookup_filter_ne h t]
          · simp [bne_iff_ne, ha] at hf

theorem lookup_alSet_self {κ α : Type} [BEq κ] [LawfulBEq κ] (k : κ)
    (v : α) (l : List (κ × α)) : List.lookup k (alSet k v l) = some v := by
  simp [alSet, List.lookup]

theorem lookup_alSet_ne {κ α : Type} [BEq κ] [LawfulBEq κ] {k k' : κ}
    (h : k' ≠ k) (v : α) (l : List (κ × α)) :
    List.lookup k' (alSet k v l) = List.lookup k' l := by
  have h1 : (k' == k) = false := beq_false_of_ne h
  simp only [alSet, List.lookup, h1]
  exact lookup_filter_ne h l

theorem lookup_alRemove_self {κ α : Type} [BEq κ] [LawfulBEq κ] (k : κ) :
    ∀ l : List (κ × α), List.lookup k (alRemove k l) = none
  | [] => rfl
  | (a, b) :: t => by
      have ih := lookup_alRemove_self k t
      by_cases ha : a = k
      · subst ha
        simpa [alRemove, List.filter_cons] using ih
      · have h1 : (k == a) = false := beq_false_of_ne fun h => ha h.symm
        have h2 : (a != k) = true := by simp [bne_iff_ne, ha]
        simpa [alRemove, List.filter_cons, h2, List.lookup, h1] using ih

theorem lookup_alRemove_ne {κ α : Type} [BEq κ] [LawfulBEq κ] {k k' : κ}
    (h : k' ≠ k) (l : List (κ × α)) :
    List.lookup k' (alRemove k l) = List.lookup k' l :=
  lookup_filter_ne h l

theorem alKeys_nodup_alRemove {κ α : Type} [BEq κ] (k : κ)
    (l : List (κ × α)) (h : (alKeys l).Nodup) :
    (alKeys (alRemove k l)).Nodup :=
  List.Nodup.sublist (List.Sublist.map Prod.fst (List.filter_sublist l)) h

theorem alKeys_nodup_alSet {κ α : Type} [BEq κ] [LawfulBEq κ] (k : κ)
    (v : α) (l : List (κ × α)) (h : (alKeys l).Nodup) :
    (alKeys (alSet k v l)).Nodup := by
  simp only [alKeys, alSet, List.map_cons, List.nodup_cons]
  refine ⟨?_, alKeys_nodup_alRemove k l h⟩
  intro hk
  simp only [List.mem_map, List.mem_filter, bne_iff_ne] at hk
  obtain ⟨p, ⟨_, hne⟩, hp⟩ := hk
  exact hne hp

/-! ## The claims -/

/-- C3: for any set of updates applied to a room's convergent document
state, the resulting full-state encoding is independent of the arrival
order of the updates (any two permutations yield byte-identical
encodings), and re-applying an update that is already merged leaves the
encoded state unchanged. -/
theorem C3_convergence_idempotence (doc : Y.Doc) (us us2 : List (List Nat))
    (u : List Nat) (hc : Y.Canonical doc) (hperm : us.Perm us2)
    (hu : u ∈ us) :
    Y.encodeStateAsUpdate (Y.applyAllD doc us)
        = Y.encodeStateAsUpdate (Y.applyAllD doc us2)
      ∧ Y.encodeStateAsUpdate (Y.applyUpdateD (Y.applyAllD doc us) u)
        = Y.encodeStateAsUpdate (Y.applyAllD doc us) := by
  have hs1 := Y.applyAllD_sorted us doc hc
  have hs2 := Y.applyAllD_sorted us2 doc hc
  constructor
  · have h : Y.applyAllD doc us = Y.applyAllD doc us2 := by
      refine Y.canonical_eq hs1 hs2 ?_
      rw [Y.applyAllD_toFinset, Y.applyAllD_toFinset,
        Y.itemsUnion_perm hperm]
    rw [h]
  · have h : Y.applyUpdateD (Y.applyAllD doc us) u = Y.applyAllD doc us := by
      refine Y.canonical_eq (Y.mergeItems_sorted _ _ hs1) hs1 ?_
      rw [Y.applyUpdateD, Y.mergeItems_toFinset, Y.applyAllD_toFinset,
        Finset.union_assoc]
      congr 1
      exact Finset.union_eq_left.mpr (Y.itemsOf_subset_itemsUnion hu)
    rw [h]

theorem C3_witness :
    Y.encodeStateAsUpdate (Y.applyAllD Y.newDoc [updOf 1, updOf 2])
        = Y.encodeStateAsUpdate (Y.applyAllD Y.newDoc [updOf 2, updOf 1])
      ∧ Y.encodeStateAsUpdate
          (Y.applyUpdateD (Y.applyAllD Y.newDoc [updOf 1, updOf 2])
            (updOf 1))
        = Y.encodeStateAsUpdate (Y.applyAllD Y.newDoc [updOf 1, updOf 2]) :=
  C3_convergence_idempotence Y.newDoc [updOf 1, updOf 2]
    [updOf 2, updOf 1] (updOf 1) (by decide)
    (List.Perm.swap (updOf 2) (updOf 1) []) (by decide)

/-- C9: after `saveDocument(name, doc)` succeeds, `loadDocument(name)`
returns a non-null document equal to applying `doc`'s encoded state to a
fresh empty document; the base64 encode/decode of the state update
preserves it exactly. -/
theorem C9_persistence_roundtrip (redis : List (String × List Nat))
    (docName : String) (doc : Y.Doc) (h : Y.Canonical doc) :
    YjsPersistenceService.loadDocument
        (YjsPersistenceService.saveDocument redis docName doc) docName
      = .ok (some doc)
    ∧ decode64 (encode64 (Y.encodeStateAsUpdate doc))
        = Y.encodeStateAsUpdate doc
    ∧ Y.applyUpdateD Y.newDoc (Y.encodeStateAsUpdate doc) = doc := by
  have hb64 : decode64 (encode64 (Y.encodeStateAsUpdate doc))
      = Y.encodeStateAsUpdate doc :=
    decode64_encode64 (Y.encodeStateAsUpdate doc) (serialize_lt doc)
  refine ⟨?_, hb64, Y.applyUpdateD_newDoc_encode h⟩
  unfold YjsPersistenceService.loadDocument YjsPersistenceService.saveDocument
  rw [lookup_alSet_self]
  dsimp only
  rw [hb64, Y.applyUpdate_newDoc_encode h]

theorem C9_witness :
    YjsPersistenceService.loadDocument
        (YjsPersistenceService.saveDocument [] "card:1" [1, 2]) "card:1"
      = .ok (some [1, 2])
    ∧ decode64 (encode64 (Y.encodeStateAsUpdate [1, 2]))
        = Y.encodeStateAsUpdate [1, 2]
    ∧ Y.applyUpdateD Y.newDoc (Y.encodeStateAsUpdate [1, 2]) = [1, 2] :=
  C9_persistence_roundtrip [] "card:1" [1, 2] (by decide)

/-- C4: a join whose authorization check (the card lookup) fails is
rejected with an error to the caller; the whole system state — room
registry included — is untouched, so no room entry is created or loaded
and no document content is returned, and the connection stays open. -/
theorem C4_join_denied (env : Env) (sys : SystemState) (client : String)
    (cardId : Nat) (h : env.canAccess (toString cardId) = false) :
    CardsGateway.onJoin env sys client cardId
        = { sys := sys, emits := [], thrown := some "NotFound: card" }
      ∧ wsFiltered client (CardsGateway.onJoin env sys client cardId)
        = (sys, [.toClient client (.errorMsg "NotFound: card")]) := by
  have h1 : CardsGateway.onJoin env sys client cardId
      = { sys := sys, emits := [], thrown := some "NotFound: card" } := by
    simp [CardsGateway.onJoin, h]
  exact ⟨h1, by rw [h1]; rfl⟩

theorem C4_witness :
    CardsGateway.onJoin envDeny initialState "s1" 1
        = { sys := initialState, emits := [],
            thrown := some "NotFound: card" }
      ∧ wsFiltered "s1" (CardsGateway.onJoin envDeny initialState "s1" 1)
        = (initialState,
           [.toClient "s1" (.errorMsg "NotFound: card")]) :=
  C4_join_denied envDeny initialState "s1" 1 rfl

/-- C10: an update for a room whose document is not resident never
lazily creates or loads the document: the missing-document assertion
throws, the sender gets an error message, and no state change, snapshot
write, broadcast or debounce scheduling occurs. -/
theorem C10_update_unresident (env : Env) (now : Nat) (sys : SystemState)
    (client cardId : String) (update : List Nat)
    (h1 : env.canAccess cardId = true)
    (h2 : List.lookup ("card:" ++ cardId) sys.docs = none) :
    CardsGateway.onUpdate env now sys client cardId update
        = { sys := sys, emits := [], thrown := some "doc" }
      ∧ wsFiltered client
          (CardsGateway.onUpdate env now sys client cardId update)
        = (sys, [.toClient client (.errorMsg "doc")]) := by
  have h3 : CardsGateway.onUpdate env now sys client cardId update
      = { sys := sys, emits := [], thrown := some "doc" } := by
    simp [CardsGateway.onUpdate, h1, h2]
  exact ⟨h3, by rw [h3]; rfl⟩

theorem C10_witness :
    CardsGateway.onUpdate envAll 0 initialState "s1" "1" (updOf 1)
        = { sys := initialState, emits := [], thrown := some "doc" }
      ∧ wsFiltered "s1"
          (CardsGateway.onUpdate envAll 0 initialState "s1" "1" (updOf 1))
        = (initialState, [.toClient "s1" (.errorMsg "doc")]) :=
  C10_update_unresident envAll 0 initialState "s1" "1" (updOf 1) rfl rfl

/-- C7: an update whose payload fails to decode/apply is rejected: the
sender is notified via an `error` message, the whole system state (in
particular the room's convergent state) is unchanged, and the server
does not disconnect the sender (the exception filter only emits). -/
theorem C7_malformed_update (env : Env) (now : Nat) (sys : SystemState)
    (client cardId : String) (update : List Nat) (doc : Y.Doc)
    (h1 : env.canAccess cardId = true)
    (h2 : List.lookup ("card:" ++ cardId) sys.docs = some doc)
    (h3 : deserialize (decode64 update) = none) :
    CardsGateway.onUpdate env now sys client cardId update
        = { sys := sys, emits := [], thrown := some "applyUpdate" }
      ∧ wsFiltered client
          (CardsGateway.onUpdate env now sys client cardId update)
        = (sys, [.toClient client (.errorMsg "applyUpdate")]) := by
  have h4 : Y.applyUpdate doc (decode64 update) = none := by
    simp [Y.applyUpdate, h3]
  have h5 : CardsGateway.onUpdate env now sys client cardId update
      = { sys := sys, emits := [], thrown := some "applyUpdate" } := by
    simp [CardsGateway.onUpdate, h1, h2, h4]
  exact ⟨h5, by rw [h5]; rfl⟩

theorem C7_witness :
    CardsGateway.onUpdate envAll 0 twoJoinedSys "s1" "1" [0, 16]
        = { sys := twoJoinedSys, emits := [], thrown := some "applyUpdate" }
      ∧ wsFiltered "s1"
          (CardsGateway.onUpdate envAll 0 twoJoinedSys "s1" "1" [0, 16])
        = (twoJoinedSys, [.toClient "s1" (.errorMsg "applyUpdate")]) :=
  C7_malformed_update envAll 0 twoJoinedSys "s1" "1" [0, 16] []
    rfl (by decide) (by decide)

/-- C1 counterexample: with two sessions in room `card:1`, an update
whose snapshot write fails IS merged into the in-memory state, but —
contrary to the claim — it is NOT broadcast to the other session and
the failure is not only logged: the exception reaches the filter, which
sends the sender an `error` event. -/
theorem C1_counterexample :
    List.lookup "card:1" c1Res.sys.docs = some [1]
      ∧ c1Res.emits = []
      ∧ c1Res.thrown = some "saveDocument"
      ∧ wsFiltered "s1" c1Res
        = (c1Res.sys, [.toClient "s1" (.errorMsg "saveDocument")]) := by
  refine ⟨by decide, by decide, by decide, by decide⟩

/-- C1 amended: when the snapshot persistence write fails during an
update, the update has already been applied to the room's in-memory
convergent state and stays applied, but the broadcast to the other
sessions and the debounce scheduling are skipped (the write's exception
aborts the handler); the sender receives an `error` event from the
exception filter and is not disconnected; no other part of the system
state changes. -/
theorem C1_amended (env : Env) (now : Nat) (sys : SystemState)
    (client cardId : String) (update : List Nat) (doc doc2 : Y.Doc)
    (h1 : env.canAccess cardId = true)
    (h2 : List.lookup ("card:" ++ cardId) sys.docs = some doc)
    (h3 : Y.applyUpdate doc (decode64 update) = some doc2)
    (h4 : env.saveOk = false) :
    CardsGateway.onUpdate env now sys client cardId update
        = { sys := { sys with docs := alSet ("card:" ++ cardId) doc2 sys.docs },
            emits := [], thrown := some "saveDocument" }
      ∧ (wsFiltered client
          (CardsGateway.onUpdate env now sys client cardId update)).2
        = [.toClient client (.errorMsg "saveDocument")] := by
  have h5 : CardsGateway.onUpdate env now sys client cardId update
      = { sys := { sys with docs := alSet ("card:" ++ cardId) doc2 sys.docs },
          emits := [], thrown := some "saveDocument" } := by
    simp [CardsGateway.onUpdate, h1, h2, h3, h4]
  exact ⟨h5, by rw [h5]; rfl⟩

theorem C1_amended_witness :
    CardsGateway.onUpdate envNoSave 0 twoJoinedSys "s1" "1" (updOf 1)
        = { sys := { twoJoinedSys with
                       docs := alSet "card:1" [1] twoJoinedSys.docs },
            emits := [], thrown := some "saveDocument" }
      ∧ (wsFiltered "s1"
          (CardsGateway.onUpdate envNoSave 0 twoJoinedSys "s1" "1"
            (updOf 1))).2
        = [.toClient "s1" (.errorMsg "saveDocument")] :=
  C1_amended envNoSave 0 twoJoinedSys "s1" "1" (updOf 1) [] [1]
    rfl (by decide) (by decide) rfl

/-- C8 counterexample: a session that joins `card:1` and then `card:2`
(never leaving) is simultaneously a member of both rooms' session sets,
refuting "a session belongs to at most one room at any time". -/
theorem C8_counterexample :
    "s1" ∈ roomMembers c8Sys "card:1"
      ∧ "s1" ∈ roomMembers c8Sys "card:2"
      ∧ ("card:1" : String) ≠ "card:2" := by
  refine ⟨by decide, by decide, by decide⟩

/-- C8 amended: joins are not exclusive — a successful join adds the
session to the new room's member set while keeping every previous
membership, so a session can be a member of several rooms at once;
membership in a room ends only through an explicit leave of that room
or a disconnect. -/
theorem C8_amended (env : Env) (sys : SystemState) (client : String)
    (cardId : Nat) (h : env.canAccess (toString cardId) = true) :
    (CardsGateway.onJoin env sys client cardId).sys.membership
        = CardsGateway.memJoin sys.membership client
            (CardsGateway.roomOf cardId)
      ∧ (CardsGateway.onLeave sys client cardId).sys.membership
        = CardsGateway.memLeave sys.membership client
            (CardsGateway.roomOf cardId) := by
  constructor
  · simp only [CardsGateway.onJoin, h, if_true]
    split <;> rfl
  · simp only [CardsGateway.onLeave]
    split <;> rfl

theorem C8_amended_witness :
    (CardsGateway.onJoin envAll c8Sys "s1" 1).sys.membership
        = CardsGateway.memJoin c8Sys.membership "s1"
            (CardsGateway.roomOf 1)
      ∧ (CardsGateway.onLeave c8Sys "s1" 1).sys.membership
        = CardsGateway.memLeave c8Sys.membership "s1"
            (CardsGateway.roomOf 1) :=
  C8_amended envAll c8Sys "s1" 1 rfl

/-- C6: a session joining a room after `N` updates have been merged
receives, with no per-update replay, (a) a full-state encoding of the
room's document — taken from the resident doc, or loaded from the
persisted snapshot when the room is cold, or a fresh empty state when no
snapshot exists — whose application to a fresh doc reconstructs all `N`
updates, and (b) the encoding of the room's current presence entries. -/
theorem C6_join_completeness (env : Env) (sys : SystemState)
    (client : String) (cardId : Nat) (us : List (List Nat)) (D : Y.Doc)
    (hD : D = Y.applyAllD Y.newDoc us)
    (hacc : env.canAccess (toString cardId) = true)
    (hcase : List.lookup (CardsGateway.roomOf cardId) sys.docs = some D
      ∨ (List.lookup (CardsGateway.roomOf cardId) sys.docs = none
          ∧ List.lookup ("yjs:" ++ CardsGateway.roomOf cardId) sys.redis
              = some (encode64 (Y.encodeStateAsUpdate D)))
      ∨ (List.lookup (CardsGateway.roomOf cardId) sys.docs = none
          ∧ List.lookup ("yjs:" ++ CardsGateway.roomOf cardId) sys.redis
              = none
          ∧ D = Y.newDoc)) :
    (CardsGateway.onJoin env sys client cardId).thrown = none
      ∧ (CardsGateway.onJoin env sys client cardId).emits
        = [.toClient client (.awareness (CardsGateway.roomOf cardId)
              (encodeAwarenessUpdate
                ((List.lookup (CardsGateway.roomOf cardId)
                    sys.awarenessStates).getD [])
                (((List.lookup (CardsGateway.roomOf cardId)
                    sys.awarenessStates).getD []).map Prod.fst))),
           .toClient client (.sync (Y.encodeStateAsUpdate D))]
      ∧ Y.applyUpdateD Y.newDoc (Y.encodeStateAsUpdate D) = D := by
  have hcanon : Y.Canonical D := by
    rw [hD]
    exact Y.applyAllD_sorted us Y.newDoc List.sorted_nil
  have hrecon := Y.applyUpdateD_newDoc_encode hcanon
  rcases hcase with h | ⟨h, hr⟩ | ⟨h, hr, hDnew⟩
  · refine ⟨?_, ?_, hrecon⟩ <;> simp [CardsGateway.onJoin, hacc, h]
  · have hload : YjsPersistenceService.loadDocument sys.redis
        (CardsGateway.roomOf cardId) = .ok (some D) := by
      unfold YjsPersistenceService.loadDocument
      rw [hr]
      dsimp only
      rw [decode64_encode64 (Y.encodeStateAsUpdate D) (serialize_lt D),
        Y.applyUpdate_newDoc_encode hcanon]
    refine ⟨?_, ?_, hrecon⟩ <;> simp [CardsGateway.onJoin, hacc, h, hload]
  · have hload : YjsPersistenceService.loadDocument sys.redis
        (CardsGateway.roomOf cardId) = .ok none := by
      unfold YjsPersistenceService.loadDocument
      rw [hr]
    subst hDnew
    refine ⟨?_, ?_, hrecon⟩ <;> simp [CardsGateway.onJoin, hacc, h, hload]

theorem C6_witness :
    (CardsGateway.onJoin envAll twoJoinedSys "s3" 1).thrown = none
      ∧ (CardsGateway.onJoin envAll twoJoinedSys "s3" 1).emits
        = [.toClient "s3" (.awareness (CardsGateway.roomOf 1)
              (encodeAwarenessUpdate
                ((List.lookup (CardsGateway.roomOf 1)
                    twoJoinedSys.awarenessStates).getD [])
                (((List.lookup (CardsGateway.roomOf 1)
                    twoJoinedSys.awarenessStates).getD []).map Prod.fst))),
           .toClient "s3" (.sync (Y.encodeStateAsUpdate []))]
      ∧ Y.applyUpdateD Y.newDoc (Y.encodeStateAsUpdate []) = [] :=
  C6_join_completeness envAll twoJoinedSys "s3" 1 [] [] rfl rfl
    (Or.inl (by decide))

/-! ### Helper lemmas for the debounce invariant (C5): no handler ever
creates a second pending timer for a room. -/

theorem applyAwarenessTo_saveTimers (dr : String)
    (e : List (Nat × Option Nat)) (s : SystemState) :
    (CardsGateway.applyAwarenessTo dr e s).saveTimers = s.saveTimers := by
  unfold CardsGateway.applyAwarenessTo
  split <;> rfl

theorem foldl_applyAwarenessTo_saveTimers (dr : String)
    (e : List (Nat × Option Nat)) :
    ∀ (hits : List (String × String)) (s : SystemState),
      (hits.foldl (fun s _ => CardsGateway.applyAwarenessTo dr e s)
          s).saveTimers = s.saveTimers
  | [], _ => rfl
  | h :: t, s => by
      rw [List.foldl_cons, foldl_applyAwarenessTo_saveTimers dr e t _,
        applyAwarenessTo_saveTimers]

theorem onJoin_saveTimers (env : Env) (sys : SystemState) (client : String)
    (cardId : Nat) :
    (CardsGateway.onJoin env sys client cardId).sys.saveTimers
      = sys.saveTimers := by
  simp only [CardsGateway.onJoin]
  split
  · split <;> rfl
  · rfl

theorem onLeave_saveTimers (sys : SystemState) (client : String)
    (cardId : Nat) :
    (CardsGateway.onLeave sys client cardId).sys.saveTimers
      = sys.saveTimers := by
  simp only [CardsGateway.onLeave]
  split <;> rfl

theorem onAwarenessUpdate_saveTimers (sys : SystemState) (client : String)
    (dataRoom : String) (entries : List (Nat × Option Nat)) :
    (CardsGateway.onAwarenessUpdate sys client dataRoom
        entries).sys.saveTimers = sys.saveTimers := by
  simp only [CardsGateway.onAwarenessUpdate]
  exact foldl_applyAwarenessTo_saveTimers dataRoom entries _ sys

theorem handleDisconnect_saveTimers (sys : SystemState) (client : String) :
    (CardsGateway.handleDisconnect sys client).sys.saveTimers
      = sys.saveTimers := by
  simp only [CardsGateway.handleDisconnect]
  split
  · rfl
  · split <;> rfl

theorem transportDisconnect_saveTimers (sys : SystemState)
    (client : String) :
    (CardsGateway.transportDisconnect sys client).sys.saveTimers
      = sys.saveTimers := by
  simp only [CardsGateway.transportDisconnect]
  exact handleDisconnect_saveTimers sys client

theorem onUpdate_saveTimers_nodup (env : Env) (now : Nat)
    (sys : SystemState) (client cardId : String) (update : List Nat)
    (h : (alKeys sys.saveTimers).Nodup) :
    (alKeys (CardsGateway.onUpdate env now sys client cardId
        update).sys.saveTimers).Nodup := by
  simp only [CardsGateway.onUpdate]
  split
  · split
    · exact h
    · split
      · exact h
      · split
        · simp only [CardsGateway.debounceSave]
          exact alKeys_nodup_alSet _ _ _ h
        · exact h
  · exact h

theorem fireTimer_saveTimers_nodup (sys : SystemState) (k : String)
    (e : TimerEntry) (h : (alKeys sys.saveTimers).Nodup) :
    (alKeys (CardsGateway.fireTimer sys k e).saveTimers).Nodup := by
  simp only [CardsGateway.fireTimer]
  exact alKeys_nodup_alRemove _ _ h

theorem fireDueFuel_saveTimers_nodup :
    ∀ (fuel : Nat) (sys : SystemState) (t : Nat),
      (alKeys sys.saveTimers).Nodup →
        (alKeys (CardsGateway.fireDueFuel fuel sys t).saveTimers).Nodup
  | 0, _, _, h => h
  | fuel + 1, sys, t, h => by
      simp only [CardsGateway.fireDueFuel]
      split
      · split
        · exact fireDueFuel_saveTimers_nodup fuel _ t
            (fireTimer_saveTimers_nodup sys _ _ h)
        · exact h
      · exact h

theorem wsFiltered_sys (client : String) (r : StepResult) :
    (wsFiltered client r).1 = r.sys := by
  unfold wsFiltered
  split <;> rfl

theorem handleEvent_saveTimers_nodup (env : Env) (now : Nat)
    (sys : SystemState) (ev : GEvent)
    (h : (alKeys sys.saveTimers).Nodup) :
    (alKeys (handleEvent env now sys ev).sys.saveTimers).Nodup := by
  cases ev with
  | join c id =>
      simp only [handleEvent]
      rw [onJoin_saveTimers]
      exact h
  | leave c id =>
      simp only [handleEvent]
      rw [onLeave_saveTimers]
      exact h
  | update c id u =>
      simp only [handleEvent]
      exact onUpdate_saveTimers_nodup env now sys c id u h
  | awarenessUpd c room entries =>
      simp only [handleEvent]
      rw [onAwarenessUpdate_saveTimers]
      exact h
  | disconnect c =>
      simp only [handleEvent]
      rw [transportDisconnect_saveTimers]
      exact h

theorem runEvents_saveTimers_nodup (env : Env) :
    ∀ (events : List (Nat × GEvent)) (sys : SystemState),
      (alKeys sys.saveTimers).Nodup →
        (alKeys (runEvents env sys events).1.saveTimers).Nodup
  | [], _, h => h
  | (t, ev) :: rest, sys, h => by
      simp only [runEvents]
      apply runEvents_saveTimers_nodup env rest
      rw [wsFiltered_sys]
      exact handleEvent_saveTimers_nodup env t _ ev
        (fireDueFuel_saveTimers_nodup _ _ t h)

/-- C5: the debounce delay is 2 seconds; `debounceSave` cancels the
room's previous timer and schedules exactly one new timer at
`now + 2000` carrying that update's derived JSON; every successful
update does exactly that; across any run the timer map never holds two
entries for one room; and in the reference scenario (updates at t=0,
t=0.5s, t=1.0s) exactly one materialization call fires, at t=3.0s, with
the content as of t=1.0s, after which the pending entry is cleared. -/
theorem C5_debounce_coalescing :
    CardsGateway.SAVE_DEBOUNCE_MS = 2000
      ∧ (∀ (sys : SystemState) (now : Nat) (cardId : String)
            (json : List Nat),
          (CardsGateway.debounceSave sys now cardId json).saveTimers
            = alSet cardId
                { fireAt := now + CardsGateway.SAVE_DEBOUNCE_MS,
                  latestContent := json } sys.saveTimers)
      ∧ (∀ (env : Env) (now : Nat) (sys : SystemState)
            (client cardId : String) (update : List Nat)
            (doc doc2 : Y.Doc),
          env.canAccess cardId = true →
            List.lookup ("card:" ++ cardId) sys.docs = some doc →
              Y.applyUpdate doc (decode64 update) = some doc2 →
                env.saveOk = true →
                  (CardsGateway.onUpdate env now sys client cardId
                      update).sys.saveTimers
                    = alSet cardId
                        { fireAt := now + CardsGateway.SAVE_DEBOUNCE_MS,
                          latestContent :=
                            CardsGateway.yXmlFragmentToJSON doc2 }
                        sys.saveTimers)
      ∧ (∀ (env : Env) (sys : SystemState) (events : List (Nat × GEvent)),
          (alKeys sys.saveTimers).Nodup →
            (alKeys (runEvents env sys events).1.saveTimers).Nodup)
      ∧ (CardsGateway.runToQuiescence c5Sys).matTrace
          = [(3000, "1", CardsGateway.yXmlFragmentToJSON [1, 2, 3])]
      ∧ (CardsGateway.runToQuiescence c5Sys).saveTimers = [] := by
  refine ⟨rfl, fun sys now cardId json => rfl, ?_,
    fun env sys events h => runEvents_saveTimers_nodup env events sys h,
    by decide, by decide⟩
  intro env now sys client cardId update doc doc2 h1 h2 h3 h4
  simp [CardsGateway.onUpdate, h1, h2, h3, h4, CardsGateway.debounceSave]

theorem C5_witness :
    (CardsGateway.onUpdate envAll 0 twoJoinedSys "s1" "1"
        (updOf 1)).sys.saveTimers
      = alSet "1"
          { fireAt := 0 + CardsGateway.SAVE_DEBOUNCE_MS,
            latestContent := CardsGateway.yXmlFragmentToJSON [1] }
          twoJoinedSys.saveTimers
    ∧ (alKeys (runEvents envAll initialState
        [(0, .join "s1" 1)]).1.saveTimers).Nodup :=
  ⟨C5_debounce_coalescing.2.2.1 envAll 0 twoJoinedSys "s1" "1" (updOf 1)
      [] [1] rfl (by decide) (by decide) rfl,
   C5_debounce_coalescing.2.2.2.1 envAll initialState
      [(0, .join "s1" 1)] (by decide)⟩

/-- C2: the claim says a transport-level disconnect removes the
session's presence entry and broadcasts the removal. In the code,
`socketToRoom` is never written during `onJoin`, so `handleDisconnect`'s
lookup always misses and it returns before touching awareness: after
`s1` joins `card:1`, publishes presence `(7, 5)` and disconnects, the
presence entry is still there and nothing is broadcast. -/
theorem C2_disconnect_leaves_presence :
    List.lookup "card:1" c2Sys.awarenessStates = some [(7, 5)]
      ∧ c2Sys.socketToRoom = []
      ∧ c2Res.sys.awarenessStates = c2Sys.awarenessStates
      ∧ c2Res.emits = [] := by
  refine ⟨by decide, by decide, by decide, by decide⟩

end Tilly
